import Mathlib

/-!
# Renderer fan-out and application start-up of `wails`

A shallow embedding of `lib/renderer/multihead.go` and `app.go`.

* A Go `error` result is an `Option Error`: `none` is `nil`.
* The concrete renderers (`WebView`, `Bridge`) and the three managers are not part of the
  sources; a renderer is represented by the outcome of each of its methods (`Behaviour`),
  a manager by a handle, so that every statement quantifies over all such outcomes.
* Every call that the embedded code makes on a collaborator is recorded as a `Call`,
  in the order in which it is made; a member of a renderer list is named by its position.
* Calls on the logger (`SetLogLevel`, `Info`, `Error`) are not recorded, with the exception
  of `Fatalf`, which ends the process.
-/

namespace Wails

/-! ## Data model -/

/-- A non-nil Go `error`, identified by its message. -/
abbrev Error := String

/-- The application configuration. `app.go` touches `DisableInspector` only; the remaining
fields are kept as one value. -/
structure AppConfig where
  DisableInspector : Bool
  settings : String
deriving DecidableEq, Repr

/-- Handle of an `interfaces.IPCManager`. -/
structure IPCManager where
  id : Nat
deriving DecidableEq, Repr

/-- Handle of an `interfaces.EventManager`. -/
structure EventManager where
  id : Nat
deriving DecidableEq, Repr

/-- An `interfaces.BindingManager`: a handle and the outcome of its `Start`. -/
structure BindingManager where
  id : Nat
  Start : Option Error
deriving DecidableEq, Repr

/-- The `messages.EventData` of `NotifyEvent`: a name and a serialised payload. -/
structure EventData where
  Name : String
  Data : String
deriving DecidableEq, Repr

/-- The outcome of every method of a renderer that returns something.  The void methods
(`EnableConsole`, `Fullscreen`, `UnFullscreen`, `SetTitle`, `Close`) return nothing to
their caller and so have no field. -/
structure Behaviour where
  Initialise : AppConfig → IPCManager → EventManager → Option Error
  Run : Option Error
  NewBinding : String → Option Error
  Callback : String → Option Error
  NotifyEvent : EventData → Option Error
  SelectFile : String
  SelectDirectory : String
  SelectSaveFile : String
  SetColour : String → Option Error

/-- The concrete type behind an `interfaces.Renderer` value. -/
inductive Kind where
  | WebView
  | Bridge
  | Stub
deriving DecidableEq, Repr

/-- An `interfaces.Renderer` value. -/
structure Renderer extends Behaviour where
  kind : Kind

/-- The constructor `renderer.NewWebView()`; what the new webview does is a parameter. -/
def NewWebView (b : Behaviour) : Renderer :=
  { b with kind := Kind.WebView }

/-- The literal `&WebView{}`. -/
def WebView.new (b : Behaviour) : Renderer :=
  { b with kind := Kind.WebView }

/-- The literal `&Bridge{}` (`&renderer.Bridge{}` in `app.go`). -/
def Bridge.new (b : Behaviour) : Renderer :=
  { b with kind := Kind.Bridge }

/-- The runtime object that `NewRuntime` builds from the event manager and the renderers. -/
structure Runtime where
  emgr : EventManager
  renderers : List Nat
deriving DecidableEq, Repr

/-- The execution context of a call: the goroutine of the caller, or a goroutine started by a
`go` statement. -/
inductive Context where
  | caller
  | background
deriving DecidableEq, Repr

/-- A call on a collaborator.  `member` is the position of the renderer in the list that is
being iterated, counted from `0`; a list of renderers passed to a manager is given by the
positions of its elements.  `Go member` is the `go` statement that starts the goroutine which
calls `Run` on that member. -/
inductive Call where
  | Initialise (member : Nat) (app : AppConfig) (ipc : IPCManager) (emgr : EventManager)
  | Run (member : Nat) (ctx : Context)
  | NewBinding (member : Nat) (bindingName : String)
  | Callback (member : Nat) (data : String)
  | NotifyEvent (member : Nat) (eventData : EventData)
  | SelectFile (member : Nat)
  | SelectDirectory (member : Nat)
  | SelectSaveFile (member : Nat)
  | SetColour (member : Nat) (color : String)
  | EnableConsole (member : Nat)
  | Fullscreen (member : Nat)
  | UnFullscreen (member : Nat)
  | SetTitle (member : Nat) (title : String)
  | Close (member : Nat)
  | EventManagerStart (emgr : EventManager) (renderers : List Nat)
  | IPCStart (ipc : IPCManager) (emgr : EventManager) (bmgr : Nat)
  | NewRuntime (emgr : EventManager) (renderers : List Nat)
  | BindingManagerStart (bmgr : Nat) (renderers : List Nat) (runtime : Runtime)
  | Go (member : Nat)
deriving DecidableEq, Repr

/-- The struct `MultiHead`.  The fields `bridge` and `webview` are declared by the source and
never assigned. -/
structure MultiHead where
  bridge : Option Renderer := none
  webview : Option Renderer := none
  renderers : List Renderer := []

/-! ## `MultiHead`: the sequential operations -/

/-- The loop `for _, r := range rs { if err := op(r); err != nil { return err } }; return nil`
of `Initialise`, `NewBinding`, `Callback`, `NotifyEvent` and `SetColour`.  `i` is the position
of the head of the list, `ev i` the record of the call on member `i`. -/
def failFast (op : Renderer → Option Error) (ev : Nat → Call) :
    Nat → List Renderer → List Call × Option Error
  | _, [] => ([], none)
  | i, r :: rs =>
    match op r with
    | some err => ([ev i], some err)
    | none => ((ev i) :: (failFast op ev (i + 1) rs).1, (failFast op ev (i + 1) rs).2)

/-- The loop `for _, r := range rs { if val := op(r); val != "" { return val } }; return ""`
of the three selection dialogs. -/
def firstNonEmpty (op : Renderer → String) (ev : Nat → Call) :
    Nat → List Renderer → List Call × String
  | _, [] => ([], "")
  | i, r :: rs =>
    if op r ≠ "" then ([ev i], op r)
    else ((ev i) :: (firstNonEmpty op ev (i + 1) rs).1, (firstNonEmpty op ev (i + 1) rs).2)

/-- The loop `for _, r := range rs { op(r) }` of the void broadcasts. -/
def forEach (ev : Nat → Call) : Nat → List Renderer → List Call
  | _, [] => []
  | i, _ :: rs => (ev i) :: forEach ev (i + 1) rs

/-- The loop of `MultiHead.Initialise` (lines 22-28) over a member list. -/
def MultiHead.initialiseMembers (app : AppConfig) (ipc : IPCManager) (emgr : EventManager)
    (rs : List Renderer) : List Call × Option Error :=
  failFast (fun r => r.Initialise app ipc emgr) (fun i => Call.Initialise i app ipc emgr) 0 rs

/-- `MultiHead.Initialise`: the member list becomes `[&Bridge{}, &WebView{}]`, then every
member is initialised in order.  The result is the new state of the receiver, the calls made
and the returned error. -/
def MultiHead.Initialise (d : MultiHead) (bridge webview : Behaviour) (app : AppConfig)
    (ipc : IPCManager) (emgr : EventManager) : MultiHead × List Call × Option Error :=
  let d1 : MultiHead := { d with renderers := [Bridge.new bridge, WebView.new webview] }
  (d1, MultiHead.initialiseMembers app ipc emgr d1.renderers)

/-- `NewMultiHead`: the zero value of the struct. -/
def NewMultiHead : MultiHead := {}

/-- The loop of `MultiHead.NewBinding` with the line it prints before each call:
the printed lines, the calls made, the returned error. -/
def MultiHead.newBindingLoop (bindingName : String) :
    Nat → List Renderer → List String × List Call × Option Error
  | _, [] => ([], [], none)
  | i, r :: rs =>
    let line := "NewBinding(" ++ bindingName ++ ")\n"
    match r.NewBinding bindingName with
    | some err => ([line], [Call.NewBinding i bindingName], some err)
    | none =>
      (line :: (MultiHead.newBindingLoop bindingName (i + 1) rs).1,
       (Call.NewBinding i bindingName) :: (MultiHead.newBindingLoop bindingName (i + 1) rs).2.1,
       (MultiHead.newBindingLoop bindingName (i + 1) rs).2.2)

/-- `MultiHead.NewBinding`: the calls made and the returned error. -/
def MultiHead.NewBinding (d : MultiHead) (bindingName : String) : List Call × Option Error :=
  (MultiHead.newBindingLoop bindingName 0 d.renderers).2

/-- `MultiHead.Callback`. -/
def MultiHead.Callback (d : MultiHead) (data : String) : List Call × Option Error :=
  failFast (fun r => r.Callback data) (fun i => Call.Callback i data) 0 d.renderers

/-- `MultiHead.NotifyEvent`. -/
def MultiHead.NotifyEvent (d : MultiHead) (eventData : EventData) : List Call × Option Error :=
  failFast (fun r => r.NotifyEvent eventData) (fun i => Call.NotifyEvent i eventData) 0
    d.renderers

/-- `MultiHead.SelectFile`. -/
def MultiHead.SelectFile (d : MultiHead) : List Call × String :=
  firstNonEmpty (fun r => r.SelectFile) Call.SelectFile 0 d.renderers

/-- `MultiHead.SelectDirectory`. -/
def MultiHead.SelectDirectory (d : MultiHead) : List Call × String :=
  firstNonEmpty (fun r => r.SelectDirectory) Call.SelectDirectory 0 d.renderers

/-- `MultiHead.SelectSaveFile`. -/
def MultiHead.SelectSaveFile (d : MultiHead) : List Call × String :=
  firstNonEmpty (fun r => r.SelectSaveFile) Call.SelectSaveFile 0 d.renderers

/-- `MultiHead.SetColour`. -/
def MultiHead.SetColour (d : MultiHead) (color : String) : List Call × Option Error :=
  failFast (fun r => r.SetColour color) (fun i => Call.SetColour i color) 0 d.renderers

/-- `MultiHead.EnableConsole`. -/
def MultiHead.EnableConsole (d : MultiHead) : List Call :=
  forEach Call.EnableConsole 0 d.renderers

/-- `MultiHead.Fullscreen`. -/
def MultiHead.Fullscreen (d : MultiHead) : List Call :=
  forEach Call.Fullscreen 0 d.renderers

/-- `MultiHead.UnFullscreen`. -/
def MultiHead.UnFullscreen (d : MultiHead) : List Call :=
  forEach Call.UnFullscreen 0 d.renderers

/-- `MultiHead.SetTitle`. -/
def MultiHead.SetTitle (d : MultiHead) (title : String) : List Call :=
  forEach (fun i => Call.SetTitle i title) 0 d.renderers

/-- `MultiHead.Close`. -/
def MultiHead.Close (d : MultiHead) : List Call :=
  forEach Call.Close 0 d.renderers

/-! ## `MultiHead.Run`: the caller and the goroutines it starts

`Run` starts one goroutine per member but the last and then goes on without any
synchronisation.  The embedding is an interleaving semantics: a schedule is a list of picks,
`0` lets the caller take its next step and `k + 1` lets the goroutine of member `k` take its
next step.  A goroutine works on the `i` and `r` of the iteration that started it; the member
list that `Initialise` builds has two elements, so the loop has one iteration and this is the
behaviour under every version of the language. -/

/-- How a call ends for its caller: it returns, it panics, or `log.Fatalf` ends the process. -/
inductive Outcome where
  | returned (err : Option Error)
  | panicked (msg : String)
  | fatal (msg : String)
deriving DecidableEq, Repr

/-- The progress of a goroutine: not started, started with `Run` still to return, `Run`
returned `nil` with `wg.Done()` still to come (`App.start` only), finished. -/
inductive TaskStatus where
  | absent
  | ready
  | ran
  | finished
deriving DecidableEq, Repr

/-- The position of the caller inside `MultiHead.Run`: at the `go` statement of iteration `i`,
at the call of the last member, at the read of `errs[j]`, or past its end. -/
inductive RunPC where
  | launch (i : Nat)
  | primary
  | inspect (j : Nat)
  | done
deriving DecidableEq, Repr

/-- The state of one execution of `MultiHead.Run`: the position of the caller, the slice
`errs`, the goroutines, the calls made by the caller and by the goroutines, and the outcome
once there is one. -/
structure RunState where
  pc : RunPC
  errs : List (Option Error)
  tasks : List TaskStatus
  calls : List Call
  background : List Call
  result : Option Outcome
deriving DecidableEq, Repr

/-- Entry of `MultiHead.Run`: `errs` is allocated and the slice expression
`d.renderers[:len(d.renderers)-1]` is evaluated, which panics on an empty list. -/
def MultiHead.runEnter (d : MultiHead) : RunState :=
  if d.renderers.length = 0 then
    { pc := RunPC.done, errs := [], tasks := [], calls := [], background := [],
      result := some (Outcome.panicked "slice bounds out of range [:-1]") }
  else
    { pc := if 0 < d.renderers.length - 1 then RunPC.launch 0 else RunPC.primary,
      errs := List.replicate d.renderers.length none,
      tasks := List.replicate (d.renderers.length - 1) TaskStatus.absent,
      calls := [], background := [], result := none }

/-- One step of the caller of `MultiHead.Run`. -/
def MultiHead.runCaller (d : MultiHead) (s : RunState) : RunState :=
  match s.pc with
  | RunPC.launch i =>
    { s with
      tasks := s.tasks.set i TaskStatus.ready
      calls := s.calls ++ [Call.Go i]
      pc := if i + 1 < d.renderers.length - 1 then RunPC.launch (i + 1) else RunPC.primary }
  | RunPC.primary =>
    match d.renderers[d.renderers.length - 1]? with
    | none => { s with pc := RunPC.done, result := some (Outcome.panicked "index out of range") }
    | some r =>
      match r.Run with
      | some err =>
        { s with
          calls := s.calls ++ [Call.Run (d.renderers.length - 1) Context.caller]
          pc := RunPC.done
          result := some (Outcome.returned (some err)) }
      | none =>
        { s with
          calls := s.calls ++ [Call.Run (d.renderers.length - 1) Context.caller]
          pc := RunPC.inspect 0 }
  | RunPC.inspect j =>
    match s.errs[j]? with
    | none => { s with pc := RunPC.done, result := some (Outcome.returned none) }
    | some (some err) => { s with pc := RunPC.done, result := some (Outcome.returned (some err)) }
    | some none => { s with pc := RunPC.inspect (j + 1) }
  | RunPC.done => s

/-- One step of the goroutine of member `k`: `errs[k] = r.Run()`. -/
def MultiHead.runGoroutine (d : MultiHead) (k : Nat) (s : RunState) : RunState :=
  match s.tasks[k]?, d.renderers[k]? with
  | some TaskStatus.ready, some r =>
    { s with
      errs := s.errs.set k r.Run
      tasks := s.tasks.set k TaskStatus.finished
      background := s.background ++ [Call.Run k Context.background] }
  | _, _ => s

/-- One scheduled step; nothing is recorded once `Run` has an outcome. -/
def MultiHead.runStep (d : MultiHead) (s : RunState) (pick : Nat) : RunState :=
  if s.result.isSome then s
  else
    match pick with
    | 0 => MultiHead.runCaller d s
    | k + 1 => MultiHead.runGoroutine d k s

/-- `MultiHead.Run` under a schedule.  The `result` of the final state is `none` when the
schedule ends before `Run` has an outcome. -/
def MultiHead.Run (d : MultiHead) (sched : List Nat) : RunState :=
  sched.foldl (MultiHead.runStep d) (MultiHead.runEnter d)

/-- The operations of a `MultiHead`, with their arguments. -/
inductive Op where
  | Initialise (bridge webview : Behaviour) (app : AppConfig) (ipc : IPCManager)
      (emgr : EventManager)
  | Run (sched : List Nat)
  | NewBinding (bindingName : String)
  | Callback (data : String)
  | NotifyEvent (eventData : EventData)
  | SelectFile
  | SelectDirectory
  | SelectSaveFile
  | SetColour (color : String)
  | EnableConsole
  | Fullscreen
  | UnFullscreen
  | SetTitle (title : String)
  | Close

/-- Whether the operation is `Initialise`. -/
def Op.isInitialise : Op → Bool
  | Op.Initialise _ _ _ _ _ => true
  | _ => false

/-- The receiver after an operation: `Initialise` is the only method that assigns a field. -/
def MultiHead.after (d : MultiHead) : Op → MultiHead
  | Op.Initialise bridge webview app ipc emgr => (d.Initialise bridge webview app ipc emgr).1
  | _ => d

/-! ## `app.go` -/

/-- The value of the variable `BuildMode`: `cmd.BuildModeProd` or another mode. -/
inductive BuildMode where
  | Prod
  | Debug
deriving DecidableEq, Repr

/-- The command line of the debug modes: the outcome of its `Run`. -/
structure Cli where
  Run : Option Error
deriving DecidableEq, Repr

/-- The struct `App`, without its logger. -/
structure App where
  config : AppConfig
  cli : Option Cli
  renderer : List Renderer
  logLevel : String
  ipc : IPCManager
  bindingManager : BindingManager
  eventManager : EventManager
  runtime : Option Runtime

/-- What `CreateApp` obtains from packages that are not part of the sources: the build mode,
`newConfig`, the behaviour of the two renderers it constructs, the three managers, and the
command line that `setupCli` returns. -/
structure Packages where
  BuildMode : BuildMode
  newConfig : Option AppConfig → Except Error AppConfig
  webview : Behaviour
  bridge : Behaviour
  ipcNewManager : IPCManager
  bindingNewManager : BindingManager
  eventNewManager : EventManager
  setupCli : Cli

/-- `CreateApp`.  `optionalConfig` is the variadic argument; a `nil` pointer is `none`.
The result is `Except.error` with the logged message when `log.Fatalf` ends the process.
The field `config` of the struct literal is a `nil` pointer until `newConfig` has returned; it
is assigned on every path that returns the application. -/
def CreateApp (pkg : Packages) (optionalConfig : List (Option AppConfig)) : Except String App :=
  let userConfig : Option AppConfig :=
    match optionalConfig with
    | [] => none
    | c :: _ => c
  let result : App :=
    { config := { DisableInspector := false, settings := "" }
      cli := none
      logLevel := "info"
      renderer := [NewWebView pkg.webview, Bridge.new pkg.bridge]
      ipc := pkg.ipcNewManager
      bindingManager := pkg.bindingNewManager
      eventManager := pkg.eventNewManager
      runtime := none }
  match pkg.newConfig userConfig with
  | Except.error err => Except.error ("Cannot use custom HTML: " ++ err)
  | Except.ok appconfig =>
    if pkg.BuildMode ≠ BuildMode.Prod then
      Except.ok { result with config := appconfig, cli := some pkg.setupCli }
    else
      Except.ok { result with config := { appconfig with DisableInspector := true } }

/-- The meaning of the loop variable `r` in the closures that `App.start` hands to `go`: every
iteration has a variable of its own (Go 1.22 and later), or one variable is shared by all
iterations and by the goroutines (earlier versions of the language).  The sources do not fix
the version, so the embedding of `App.start` takes it as a parameter. -/
inductive LoopVariable where
  | perIteration
  | shared
deriving DecidableEq, Repr

/-- The position of the caller in the last part of `App.start`: at `wg.Add(1)` of iteration
`i`, at the `go` statement of iteration `i`, at `wg.Done()`, at `return nil`, or past its end. -/
inductive StartPC where
  | add (i : Nat)
  | go (i : Nat)
  | wgDone
  | ret
  | done
deriving DecidableEq, Repr

/-- The state of one execution of `App.start`: the position of the caller, the position in the
renderer list of the renderer that the loop variable `r` holds, the counter of the wait group,
the goroutines, the calls made by the caller and by the goroutines, the field `runtime`, and
the outcome once there is one. -/
structure StartState where
  pc : StartPC
  r : Nat
  wg : Int
  tasks : List TaskStatus
  calls : List Call
  background : List Call
  runtime : Option Runtime
  result : Option Outcome
deriving DecidableEq, Repr

/-- The constructor `NewRuntime(eventManager, renderers)`. -/
def NewRuntime (emgr : EventManager) (renderers : List Nat) : Runtime :=
  { emgr := emgr, renderers := renderers }

/-- The loop of `App.start` that initialises the renderers (lines 92-97). -/
def App.initialiseRenderers (a : App) : List Call × Option Error :=
  failFast (fun r => r.Initialise a.config a.ipc a.eventManager)
    (fun i => Call.Initialise i a.config a.ipc a.eventManager) 0 a.renderer

/-- The sequential part of `App.start` (lines 92-113), statement by statement, up to the
declaration of the wait group. -/
def App.startEnter (a : App) : StartState :=
  match a.initialiseRenderers.2 with
  | some err =>
    { pc := StartPC.done, r := 0, wg := 0, tasks := [], calls := a.initialiseRenderers.1,
      background := [], runtime := a.runtime, result := some (Outcome.returned (some err)) }
  | none =>
    let renderers := List.range a.renderer.length
    let calls1 := a.initialiseRenderers.1 ++ [Call.EventManagerStart a.eventManager renderers]
    let calls2 := calls1 ++ [Call.IPCStart a.ipc a.eventManager a.bindingManager.id]
    let calls3 := calls2 ++ [Call.NewRuntime a.eventManager renderers]
    let runtime := NewRuntime a.eventManager renderers
    let calls4 := calls3 ++ [Call.BindingManagerStart a.bindingManager.id renderers runtime]
    match a.bindingManager.Start with
    | some err =>
      { pc := StartPC.done, r := 0, wg := 0, tasks := [], calls := calls4,
        background := [], runtime := some runtime,
        result := some (Outcome.returned (some err)) }
    | none =>
      { pc := if 0 < a.renderer.length then StartPC.add 0 else StartPC.wgDone,
        r := 0, wg := 0, tasks := List.replicate a.renderer.length TaskStatus.absent,
        calls := calls4, background := [], runtime := some runtime, result := none }

/-- One step of the caller in the last part of `App.start`.  Iteration `i` of the loop begins
by giving the loop variable the renderer at position `i`, then executes `wg.Add(1)` and the
`go` statement.  `wg.Done()` panics when it brings the counter below zero. -/
def App.startCaller (a : App) (s : StartState) : StartState :=
  match s.pc with
  | StartPC.add i => { s with r := i, wg := s.wg + 1, pc := StartPC.go i }
  | StartPC.go i =>
    { s with
      tasks := s.tasks.set i TaskStatus.ready
      calls := s.calls ++ [Call.Go i]
      pc := if i + 1 < a.renderer.length then StartPC.add (i + 1) else StartPC.wgDone }
  | StartPC.wgDone =>
    if s.wg - 1 < 0 then
      { s with pc := StartPC.done,
               result := some (Outcome.panicked "sync: negative WaitGroup counter") }
    else { s with wg := s.wg - 1, pc := StartPC.ret }
  | StartPC.ret => { s with pc := StartPC.done, result := some (Outcome.returned none) }
  | StartPC.done => s

/-- The position of the renderer that `r` denotes in the closure of the goroutine started in
iteration `k`, at the moment the goroutine evaluates `r.Run()`: the renderer of its own
iteration, or whatever the shared loop variable holds by then. -/
def App.closureRenderer (vars : LoopVariable) (k : Nat) (s : StartState) : Nat :=
  match vars with
  | LoopVariable.perIteration => k
  | LoopVariable.shared => s.r

/-- One step of the goroutine started in iteration `k` of `App.start`: first `r.Run()`, whose
error goes to `log.Fatalf`, then `wg.Done()`. -/
def App.startGoroutine (a : App) (vars : LoopVariable) (k : Nat) (s : StartState) :
    StartState :=
  match s.tasks[k]?, a.renderer[App.closureRenderer vars k s]? with
  | some TaskStatus.ready, some r =>
    match r.Run with
    | some err =>
      { s with
        background := s.background ++ [Call.Run (App.closureRenderer vars k s) Context.background]
        tasks := s.tasks.set k TaskStatus.finished
        result := some (Outcome.fatal ("Error starting renerer: " ++ err)) }
    | none =>
      { s with
        background := s.background ++ [Call.Run (App.closureRenderer vars k s) Context.background]
        tasks := s.tasks.set k TaskStatus.ran }
  | some TaskStatus.ran, _ =>
    if s.wg - 1 < 0 then
      { s with result := some (Outcome.panicked "sync: negative WaitGroup counter") }
    else { s with wg := s.wg - 1, tasks := s.tasks.set k TaskStatus.finished }
  | _, _ => s

/-- One scheduled step of `App.start`; nothing is recorded once there is an outcome. -/
def App.startStep (a : App) (vars : LoopVariable) (s : StartState) (pick : Nat) : StartState :=
  if s.result.isSome then s
  else
    match pick with
    | 0 => App.startCaller a s
    | k + 1 => App.startGoroutine a vars k s

/-- `App.start` under a schedule: `0` lets the caller take its next step, `k + 1` the goroutine
started in iteration `k`. -/
def App.start (a : App) (vars : LoopVariable) (sched : List Nat) : StartState :=
  sched.foldl (App.startStep a vars) (App.startEnter a)

/-- `App.Run`: the execution of `start` in production mode; the `result` of the state is what
the caller of `Run` observes, `none` when the schedule ends before that.  Outside production
mode the command line runs instead (a `nil` command line is a nil dereference); its calls are
not recorded. -/
def App.Run (a : App) (mode : BuildMode) (vars : LoopVariable) (sched : List Nat) :
    StartState :=
  if mode ≠ BuildMode.Prod then
    { pc := StartPC.done, r := 0, wg := 0, tasks := [], calls := [], background := [],
      runtime := a.runtime,
      result :=
        match a.cli with
        | none => some (Outcome.panicked "nil pointer dereference")
        | some cli => some (Outcome.returned cli.Run) }
  else { a with logLevel := "error" }.start vars sched

/-- The start-up sequence as the specification words it, written out call by call:
`Initialise` on each renderer in list order with the configuration, the IPC manager and the
event manager; `eventManager.Start(renderers)`; `ipc.Start(eventManager, bindingManager)`;
`NewRuntime`; `bindingManager.Start(renderers, runtime)`. -/
def App.startupCalls (a : App) : List Call :=
  (List.range a.renderer.length).map (fun i => Call.Initialise i a.config a.ipc a.eventManager)
    ++ [Call.EventManagerStart a.eventManager (List.range a.renderer.length),
        Call.IPCStart a.ipc a.eventManager a.bindingManager.id,
        Call.NewRuntime a.eventManager (List.range a.renderer.length),
        Call.BindingManagerStart a.bindingManager.id (List.range a.renderer.length)
          { emgr := a.eventManager, renderers := List.range a.renderer.length }]

/-! ## Stub renderers for the worked examples -/

/-- A renderer on which every call succeeds and every dialog is dismissed. -/
def quiet : Behaviour where
  Initialise := fun _ _ _ => none
  Run := none
  NewBinding := fun _ => none
  Callback := fun _ => none
  NotifyEvent := fun _ => none
  SelectFile := ""
  SelectDirectory := ""
  SelectSaveFile := ""
  SetColour := fun _ => none

/-- A stub renderer with the given behaviour. -/
def stub (b : Behaviour) : Renderer :=
  { b with kind := Kind.Stub }

/-- A stub whose three dialogs all return `path`. -/
def selecting (path : String) : Renderer :=
  stub { quiet with SelectFile := path, SelectDirectory := path, SelectSaveFile := path }

/-- A stub on which each of the five error-returning calls fails with `err`. -/
def failing (err : Error) : Renderer :=
  stub { quiet with
    Initialise := fun _ _ _ => some err
    Run := some err
    NewBinding := fun _ => some err
    Callback := fun _ => some err
    NotifyEvent := fun _ => some err
    SetColour := fun _ => some err }

/-- A stub whose `Run` fails with `err` and which otherwise succeeds. -/
def crashing (err : Error) : Renderer :=
  stub { quiet with Run := some err }

/-- The member list of a `MultiHead` set directly, for stating properties of any list. -/
def MultiHead.ofList (rs : List Renderer) : MultiHead :=
  { renderers := rs }

/-- A `MultiHead` after `Initialise` with the given behaviour of the bridge and the webview. -/
def initialised (bridge webview : Behaviour) : MultiHead :=
  (NewMultiHead.Initialise bridge webview ⟨false, "cfg"⟩ ⟨1⟩ ⟨2⟩).1

/-- Packages for the worked examples: production mode, a configuration that is accepted, and
managers that start. -/
def examplePackages (webview bridge : Behaviour) : Packages where
  BuildMode := BuildMode.Prod
  newConfig := fun c => Except.ok (c.getD ⟨false, "defaults"⟩)
  webview := webview
  bridge := bridge
  ipcNewManager := ⟨1⟩
  bindingNewManager := ⟨2, none⟩
  eventNewManager := ⟨3⟩
  setupCli := ⟨none⟩

/-- The relation between the state of the last part of `App.start` and the calls made so far.
After the calls `base` of the sequential part the caller has executed the `go` statements of
the first `m` renderers; only those goroutines exist; a call of `Run` has been made only if a
goroutine exists; and when every iteration has its own loop variable, the calls of `Run` are on
distinct renderers, each made by the goroutine of that renderer. -/
structure App.StartInv (a : App) (vars : LoopVariable) (base : List Call) (s : StartState)
    (m : Nat) : Prop where
  le : m ≤ a.renderer.length
  calls : s.calls = base ++ (List.range m).map Call.Go
  add : ∀ i, s.pc = StartPC.add i → m = i ∧ i < a.renderer.length
  go : ∀ i, s.pc = StartPC.go i → m = i ∧ i < a.renderer.length
  launched : ∀ k, (s.tasks[k]? = some TaskStatus.ready ∨ s.tasks[k]? = some TaskStatus.ran
    ∨ s.tasks[k]? = some TaskStatus.finished) → k < m
  nonempty : s.background ≠ [] → 1 ≤ m
  distinct : vars = LoopVariable.perIteration →
    s.background.Nodup ∧ ∀ k, Call.Run k Context.background ∈ s.background →
      (s.tasks[k]? = some TaskStatus.ran ∨ s.tasks[k]? = some TaskStatus.finished)

/-- Every call made by a goroutine of `App.start` is a call of `Run` on a renderer of the
application, and if that `Run` returned an error the outcome is `log.Fatalf` with it. -/
def App.FatalInv (a : App) (s : StartState) : Prop :=
  ∀ c ∈ s.background, ∃ (j : Nat) (r : Renderer),
    c = Call.Run j Context.background ∧ a.renderer[j]? = some r
      ∧ ∀ e, r.Run = some e → s.result = some (Outcome.fatal ("Error starting renerer: " ++ e))

/-- The outcomes that the last part of `App.start` can have: `nil` is returned, a `wg.Done()`
panics, or the error of some renderer's `Run` reaches `log.Fatalf`. -/
@[reducible]
def App.LaunchOutcome (a : App) (out : Outcome) : Prop :=
  out = Outcome.returned none ∨ (∃ msg, out = Outcome.panicked msg)
    ∨ ∃ (k : Nat) (r : Renderer) (e : Error), a.renderer[k]? = some r ∧ r.Run = some e
        ∧ out = Outcome.fatal ("Error starting renerer: " ++ e)

/-! ## Lemmas on the three loops -/

theorem failFast_ok (op : Renderer → Option Error) (ev : Nat → Call) (rs : List Renderer) :
    ∀ i, (∀ p ∈ rs, op p = none) →
      failFast op ev i rs = ((List.range' i rs.length).map ev, none) := by
  induction rs with
  | nil => intro i _; rfl
  | cons r rs ih =>
    intro i h
    have hr : op r = none := h r (List.mem_cons_self _ _)
    have hrs : ∀ p ∈ rs, op p = none := fun p hp => h p (List.mem_cons_of_mem _ hp)
    simp [failFast, hr, ih (i + 1) hrs, List.range'_succ]

theorem failFast_fail (op : Renderer → Option Error) (ev : Nat → Call) (pre : List Renderer)
    (r : Renderer) (post : List Renderer) (e : Error) :
    ∀ i, (∀ p ∈ pre, op p = none) → op r = some e →
      failFast op ev i (pre ++ r :: post) = ((List.range' i (pre.length + 1)).map ev, some e) := by
  induction pre with
  | nil => intro i _ hr; simp [failFast, hr]
  | cons q pre ih =>
    intro i h hr
    have hq : op q = none := h q (List.mem_cons_self _ _)
    have hpre : ∀ p ∈ pre, op p = none := fun p hp => h p (List.mem_cons_of_mem _ hp)
    simp [failFast, hq, ih (i + 1) hpre hr, List.range'_succ]

theorem firstNonEmpty_hit (op : Renderer → String) (ev : Nat → Call) (pre : List Renderer)
    (r : Renderer) (post : List Renderer) :
    ∀ i, (∀ p ∈ pre, op p = "") → op r ≠ "" →
      firstNonEmpty op ev i (pre ++ r :: post) = ((List.range' i (pre.length + 1)).map ev, op r) := by
  induction pre with
  | nil => intro i _ hr; simp [firstNonEmpty, hr]
  | cons q pre ih =>
    intro i h hr
    have hq : op q = "" := h q (List.mem_cons_self _ _)
    have hpre : ∀ p ∈ pre, op p = "" := fun p hp => h p (List.mem_cons_of_mem _ hp)
    simp [firstNonEmpty, hq, ih (i + 1) hpre hr, List.range'_succ]

theorem firstNonEmpty_eq_empty_iff (op : Renderer → String) (ev : Nat → Call)
    (rs : List Renderer) :
    ∀ i, (firstNonEmpty op ev i rs).2 = "" ↔ ∀ r ∈ rs, op r = "" := by
  induction rs with
  | nil => intro i; simp [firstNonEmpty]
  | cons r rs ih =>
    intro i
    by_cases hr : op r = ""
    · simp [firstNonEmpty, hr, ih (i + 1)]
    · simp [firstNonEmpty, hr]

theorem forEach_eq (ev : Nat → Call) (rs : List Renderer) :
    ∀ i, forEach ev i rs = (List.range' i rs.length).map ev := by
  induction rs with
  | nil => intro i; rfl
  | cons r rs ih => intro i; simp [forEach, ih (i + 1), List.range'_succ]

theorem newBindingLoop_eq (bindingName : String) (rs : List Renderer) :
    ∀ i, (MultiHead.newBindingLoop bindingName i rs).2 =
      failFast (fun r => r.NewBinding bindingName) (fun j => Call.NewBinding j bindingName) i rs := by
  induction rs with
  | nil => intro i; rfl
  | cons r rs ih =>
    intro i
    cases hr : r.NewBinding bindingName with
    | none => simp [MultiHead.newBindingLoop, failFast, hr, ih (i + 1)]
    | some e => simp [MultiHead.newBindingLoop, failFast, hr]

/-! ## The selection dialogs -/

/-- C1: `SelectFile`, `SelectDirectory` and `SelectSaveFile` of a fan-out return the result of
the first member, in list order, whose result is not empty (after asking exactly the members
up to that one), and they return the empty string if and only if every member returns the
empty string. -/
theorem MultiHead.select_first_non_empty (d : MultiHead) :
    ((∀ pre r post, d.renderers = pre ++ r :: post → (∀ p ∈ pre, p.SelectFile = "") →
          r.SelectFile ≠ "" →
          d.SelectFile = ((List.range (pre.length + 1)).map Call.SelectFile, r.SelectFile))
      ∧ (d.SelectFile.2 = "" ↔ ∀ r ∈ d.renderers, r.SelectFile = ""))
    ∧ ((∀ pre r post, d.renderers = pre ++ r :: post → (∀ p ∈ pre, p.SelectDirectory = "") →
          r.SelectDirectory ≠ "" →
          d.SelectDirectory =
            ((List.range (pre.length + 1)).map Call.SelectDirectory, r.SelectDirectory))
      ∧ (d.SelectDirectory.2 = "" ↔ ∀ r ∈ d.renderers, r.SelectDirectory = ""))
    ∧ ((∀ pre r post, d.renderers = pre ++ r :: post → (∀ p ∈ pre, p.SelectSaveFile = "") →
          r.SelectSaveFile ≠ "" →
          d.SelectSaveFile =
            ((List.range (pre.length + 1)).map Call.SelectSaveFile, r.SelectSaveFile))
      ∧ (d.SelectSaveFile.2 = "" ↔ ∀ r ∈ d.renderers, r.SelectSaveFile = "")) := by
  refine ⟨⟨?_, ?_⟩, ⟨?_, ?_⟩, ⟨?_, ?_⟩⟩
  · intro pre r post h hpre hr
    rw [MultiHead.SelectFile, h, List.range_eq_range']
    exact firstNonEmpty_hit (fun r => r.SelectFile) _ pre r post 0 hpre hr
  · exact firstNonEmpty_eq_empty_iff (fun r => r.SelectFile) _ d.renderers 0
  · intro pre r post h hpre hr
    rw [MultiHead.SelectDirectory, h, List.range_eq_range']
    exact firstNonEmpty_hit (fun r => r.SelectDirectory) _ pre r post 0 hpre hr
  · exact firstNonEmpty_eq_empty_iff (fun r => r.SelectDirectory) _ d.renderers 0
  · intro pre r post h hpre hr
    rw [MultiHead.SelectSaveFile, h, List.range_eq_range']
    exact firstNonEmpty_hit (fun r => r.SelectSaveFile) _ pre r post 0 hpre hr
  · exact firstNonEmpty_eq_empty_iff (fun r => r.SelectSaveFile) _ d.renderers 0

/-- Scenario C of the specification: three renderers whose `SelectFile` returns `""`, `"/a/b"`
and `"/c"`; the fan-out asks the first two and returns `"/a/b"`. -/
theorem MultiHead.select_first_non_empty_witness :
    (MultiHead.ofList [selecting "", selecting "/a/b", selecting "/c"]).SelectFile
      = ([Call.SelectFile 0, Call.SelectFile 1], "/a/b") :=
  (MultiHead.select_first_non_empty
      (MultiHead.ofList [selecting "", selecting "/a/b", selecting "/c"])).1.1
    [selecting ""] (selecting "/a/b") [selecting "/c"] rfl
    (by intro p hp; rw [List.mem_singleton] at hp; rw [hp]; rfl) (by decide)

/-! ## The broadcasts that return an error -/

/-- C2: `NewBinding`, `Callback`, `NotifyEvent` and `SetColour` of a fan-out call the members
in list order with the argument they were given.  If some member returns an error, the
fan-out returns the error of the first such member, the members up to and including it were
called once each, and no later member is called.  If no member returns an error, every
member is called once and the fan-out returns `nil`. -/
theorem MultiHead.broadcast_fail_fast (d : MultiHead) (bindingName data color : String)
    (eventData : EventData) :
    ((∀ pre r post e, d.renderers = pre ++ r :: post →
          (∀ p ∈ pre, p.NewBinding bindingName = none) → r.NewBinding bindingName = some e →
          d.NewBinding bindingName =
            ((List.range (pre.length + 1)).map (fun i => Call.NewBinding i bindingName), some e))
      ∧ ((∀ p ∈ d.renderers, p.NewBinding bindingName = none) →
          d.NewBinding bindingName =
            ((List.range d.renderers.length).map (fun i => Call.NewBinding i bindingName), none)))
    ∧ ((∀ pre r post e, d.renderers = pre ++ r :: post →
          (∀ p ∈ pre, p.Callback data = none) → r.Callback data = some e →
          d.Callback data =
            ((List.range (pre.length + 1)).map (fun i => Call.Callback i data), some e))
      ∧ ((∀ p ∈ d.renderers, p.Callback data = none) →
          d.Callback data =
            ((List.range d.renderers.length).map (fun i => Call.Callback i data), none)))
    ∧ ((∀ pre r post e, d.renderers = pre ++ r :: post →
          (∀ p ∈ pre, p.NotifyEvent eventData = none) → r.NotifyEvent eventData = some e →
          d.NotifyEvent eventData =
            ((List.range (pre.length + 1)).map (fun i => Call.NotifyEvent i eventData), some e))
      ∧ ((∀ p ∈ d.renderers, p.NotifyEvent eventData = none) →
          d.NotifyEvent eventData =
            ((List.range d.renderers.length).map (fun i => Call.NotifyEvent i eventData), none)))
    ∧ ((∀ pre r post e, d.renderers = pre ++ r :: post →
          (∀ p ∈ pre, p.SetColour color = none) → r.SetColour color = some e →
          d.SetColour color =
            ((List.range (pre.length + 1)).map (fun i => Call.SetColour i color), some e))
      ∧ ((∀ p ∈ d.renderers, p.SetColour color = none) →
          d.SetColour color =
            ((List.range d.renderers.length).map (fun i => Call.SetColour i color), none))) := by
  refine ⟨⟨?_, ?_⟩, ⟨?_, ?_⟩, ⟨?_, ?_⟩, ⟨?_, ?_⟩⟩
  · intro pre r post e h hpre hr
    rw [MultiHead.NewBinding, newBindingLoop_eq, h, List.range_eq_range']
    exact failFast_fail (fun r => r.NewBinding bindingName) _ pre r post e 0 hpre hr
  · intro h
    rw [MultiHead.NewBinding, newBindingLoop_eq, List.range_eq_range']
    exact failFast_ok (fun r => r.NewBinding bindingName) _ d.renderers 0 h
  · intro pre r post e h hpre hr
    rw [MultiHead.Callback, h, List.range_eq_range']
    exact failFast_fail (fun r => r.Callback data) _ pre r post e 0 hpre hr
  · intro h
    rw [MultiHead.Callback, List.range_eq_range']
    exact failFast_ok (fun r => r.Callback data) _ d.renderers 0 h
  · intro pre r post e h hpre hr
    rw [MultiHead.NotifyEvent, h, List.range_eq_range']
    exact failFast_fail (fun r => r.NotifyEvent eventData) _ pre r post e 0 hpre hr
  · intro h
    rw [MultiHead.NotifyEvent, List.range_eq_range']
    exact failFast_ok (fun r => r.NotifyEvent eventData) _ d.renderers 0 h
  · intro pre r post e h hpre hr
    rw [MultiHead.SetColour, h, List.range_eq_range']
    exact failFast_fail (fun r => r.SetColour color) _ pre r post e 0 hpre hr
  · intro h
    rw [MultiHead.SetColour, List.range_eq_range']
    exact failFast_ok (fun r => r.SetColour color) _ d.renderers 0 h

/-- Three members of which the second fails `NewBinding`: the first two are called with the
binding name, the third is not, and the error of the second comes back. -/
theorem MultiHead.broadcast_fail_fast_witness :
    (MultiHead.ofList [stub quiet, failing "E2", failing "E3"]).NewBinding "main.Greet"
      = ([Call.NewBinding 0 "main.Greet", Call.NewBinding 1 "main.Greet"], some "E2") :=
  (MultiHead.broadcast_fail_fast (MultiHead.ofList [stub quiet, failing "E2", failing "E3"])
      "main.Greet" "" "" ⟨"", ""⟩).1.1
    [stub quiet] (failing "E2") [failing "E3"] "E2" rfl
    (by intro p hp; rw [List.mem_singleton] at hp; rw [hp]; rfl) rfl

/-! ## `Initialise` -/

/-- C3: the loop of `MultiHead.Initialise` over a member list calls `Initialise` on the
members in list order with the given configuration, IPC manager and event manager.  If member
`k` is the first to fail, the error of member `k` is returned, the members up to and
including `k` were called once each and no later member is called; if no member fails, all
are called and `nil` is returned.  `MultiHead.Initialise` runs this loop on the two members
`[Bridge, WebView]` that it installs. -/
theorem MultiHead.Initialise_fail_fast (app : AppConfig) (ipc : IPCManager)
    (emgr : EventManager) (rs : List Renderer) :
    (∀ pre r post e, rs = pre ++ r :: post →
        (∀ p ∈ pre, p.Initialise app ipc emgr = none) → r.Initialise app ipc emgr = some e →
        MultiHead.initialiseMembers app ipc emgr rs =
          ((List.range (pre.length + 1)).map (fun i => Call.Initialise i app ipc emgr), some e))
    ∧ ((∀ p ∈ rs, p.Initialise app ipc emgr = none) →
        MultiHead.initialiseMembers app ipc emgr rs =
          ((List.range rs.length).map (fun i => Call.Initialise i app ipc emgr), none))
    ∧ (∀ (d : MultiHead) (bridge webview : Behaviour),
        (d.Initialise bridge webview app ipc emgr).1.renderers
            = [Bridge.new bridge, WebView.new webview]
          ∧ (d.Initialise bridge webview app ipc emgr).2
            = MultiHead.initialiseMembers app ipc emgr [Bridge.new bridge, WebView.new webview]) := by
  refine ⟨?_, ?_, ?_⟩
  · intro pre r post e h hpre hr
    rw [MultiHead.initialiseMembers, h, List.range_eq_range']
    exact failFast_fail (fun r => r.Initialise app ipc emgr) _ pre r post e 0 hpre hr
  · intro h
    rw [MultiHead.initialiseMembers, List.range_eq_range']
    exact failFast_ok (fun r => r.Initialise app ipc emgr) _ rs 0 h
  · intro d bridge webview
    exact ⟨rfl, rfl⟩

/-- Scenario D of the specification: `Initialise` fails on member 2 of 3; members 1 and 2 are
called, member 3 is not, and the error of member 2 is returned. -/
theorem MultiHead.Initialise_fail_fast_witness :
    MultiHead.initialiseMembers ⟨false, "cfg"⟩ ⟨1⟩ ⟨2⟩ [stub quiet, failing "E2", failing "E3"]
      = ([Call.Initialise 0 ⟨false, "cfg"⟩ ⟨1⟩ ⟨2⟩, Call.Initialise 1 ⟨false, "cfg"⟩ ⟨1⟩ ⟨2⟩],
         some "E2") :=
  (MultiHead.Initialise_fail_fast ⟨false, "cfg"⟩ ⟨1⟩ ⟨2⟩
      [stub quiet, failing "E2", failing "E3"]).1
    [stub quiet] (failing "E2") [failing "E3"] "E2" rfl
    (by intro p hp; rw [List.mem_singleton] at hp; rw [hp]; rfl) rfl

/-! ## The void broadcasts -/

/-- C8: `EnableConsole`, `Fullscreen`, `UnFullscreen`, `SetTitle` and `Close` of a fan-out call
the same operation on every member exactly once, in list order, `SetTitle` with the title it
was given; the calls do not depend on anything a member does, and on an empty member list
nothing is called. -/
theorem MultiHead.void_broadcast_all (d : MultiHead) (title : String) :
    d.EnableConsole = (List.range d.renderers.length).map Call.EnableConsole
    ∧ d.Fullscreen = (List.range d.renderers.length).map Call.Fullscreen
    ∧ d.UnFullscreen = (List.range d.renderers.length).map Call.UnFullscreen
    ∧ d.SetTitle title = (List.range d.renderers.length).map (fun i => Call.SetTitle i title)
    ∧ d.Close = (List.range d.renderers.length).map Call.Close
    ∧ (d.renderers = [] →
        d.EnableConsole = [] ∧ d.Fullscreen = [] ∧ d.UnFullscreen = [] ∧ d.SetTitle title = []
          ∧ d.Close = []) := by
  refine ⟨?_, ?_, ?_, ?_, ?_, ?_⟩
  · rw [MultiHead.EnableConsole, forEach_eq, List.range_eq_range']
  · rw [MultiHead.Fullscreen, forEach_eq, List.range_eq_range']
  · rw [MultiHead.UnFullscreen, forEach_eq, List.range_eq_range']
  · rw [MultiHead.SetTitle, forEach_eq, List.range_eq_range']
  · rw [MultiHead.Close, forEach_eq, List.range_eq_range']
  · intro h
    simp [MultiHead.EnableConsole, MultiHead.Fullscreen, MultiHead.UnFullscreen,
      MultiHead.SetTitle, MultiHead.Close, h, forEach]

/-- A fresh `MultiHead` has no members and its void broadcasts call nothing. -/
theorem MultiHead.void_broadcast_all_witness :
    NewMultiHead.EnableConsole = [] ∧ NewMultiHead.Fullscreen = [] ∧ NewMultiHead.UnFullscreen = []
      ∧ NewMultiHead.SetTitle "wails" = [] ∧ NewMultiHead.Close = [] :=
  (MultiHead.void_broadcast_all NewMultiHead "wails").2.2.2.2.2 rfl

/-! ## `MultiHead.Run` -/

theorem MultiHead.runStep_no_panic (d : MultiHead) (hd : d.renderers.length ≠ 0) (s : RunState)
    (pick : Nat) (hs : ∀ msg, s.result ≠ some (Outcome.panicked msg)) :
    ∀ msg, (MultiHead.runStep d s pick).result ≠ some (Outcome.panicked msg) := by
  intro msg
  unfold MultiHead.runStep
  split
  · exact hs msg
  · cases pick with
    | zero =>
      simp only [MultiHead.runCaller]
      split
      · exact hs msg
      · have hlt : d.renderers.length - 1 < d.renderers.length := by omega
        split
        · rename_i hnone
          rw [List.getElem?_eq_none_iff] at hnone
          omega
        · split <;> simp [hs msg]
      · split <;> simp [hs msg]
      · exact hs msg
    | succ k =>
      simp only [MultiHead.runGoroutine]
      split
      · exact hs msg
      · exact hs msg

theorem MultiHead.Run_no_panic (d : MultiHead) (hd : d.renderers.length ≠ 0) (sched : List Nat) :
    ∀ msg, (d.Run sched).result ≠ some (Outcome.panicked msg) := by
  have key : ∀ (l : List Nat) (s : RunState), (∀ msg, s.result ≠ some (Outcome.panicked msg)) →
      ∀ msg, (l.foldl (MultiHead.runStep d) s).result ≠ some (Outcome.panicked msg) := by
    intro l
    induction l with
    | nil => intro s hs; exact hs
    | cons p l ih =>
      intro s hs
      exact ih _ (MultiHead.runStep_no_panic d hd s p hs)
  apply key
  intro msg
  simp [MultiHead.runEnter, hd]

theorem MultiHead.after_length (ops : List Op) :
    ∀ d : MultiHead, (d.renderers.length = 2 ∨ ∃ op ∈ ops, op.isInitialise = true) →
      (ops.foldl MultiHead.after d).renderers.length = 2 := by
  induction ops with
  | nil =>
    intro d h
    rcases h with h | ⟨op, hop, _⟩
    · exact h
    · cases hop
  | cons o ops ih =>
    intro d h
    rw [List.foldl_cons]
    apply ih
    cases o with
    | Initialise b w app ipc emgr => left; rfl
    | _ =>
      rcases h with h | ⟨op, hop, hinit⟩
      · left; exact h
      · right
        rcases List.mem_cons.mp hop with heq | hmem
        · subst heq; simp [Op.isInitialise] at hinit
        · exact ⟨op, hmem, hinit⟩

/-- C4, evaluated where it fails: after `Initialise`, with a bridge whose `Run` fails with `"E"`
and a webview whose `Run` succeeds, a schedule in which the goroutine of the bridge has not
stored its result when the caller reads `errs` makes `Run` return `nil`; the same members
return `"E"` when the goroutine happens to finish before the read. -/
theorem MultiHead.Run_misses_late_error :
    (initialised { quiet with Run := some "E" } quiet).renderers.map (fun r => r.Run)
        = [some "E", none]
      ∧ ((initialised { quiet with Run := some "E" } quiet).Run [0, 0, 0, 0, 0]).result
        = some (Outcome.returned none)
      ∧ ((initialised { quiet with Run := some "E" } quiet).Run [0, 1, 0, 0, 0]).result
        = some (Outcome.returned (some "E")) := by
  refine ⟨rfl, rfl, rfl⟩

/-- C9, evaluated where it fails: after `Initialise`, the caller of `Run` starts the goroutine
of the bridge, runs the webview in its own context, reads `errs` and returns `nil` while the
goroutine is still at its call of `Run`: nothing in `Run` waits for it. -/
theorem MultiHead.Run_returns_before_goroutine :
    ((initialised quiet quiet).Run [0, 0, 0, 0, 0]).result = some (Outcome.returned none)
      ∧ ((initialised quiet quiet).Run [0, 0, 0, 0, 0]).calls
        = [Call.Go 0, Call.Run 1 Context.caller]
      ∧ ((initialised quiet quiet).Run [0, 0, 0, 0, 0]).tasks = [TaskStatus.ready]
      ∧ ((initialised quiet quiet).Run [0, 0, 0, 0, 0]).background = [] := by
  refine ⟨rfl, rfl, rfl, rfl⟩

/-- C10 as stated fails: the `MultiHead` that `NewMultiHead` returns has no members, and `Run`
on it panics at the slice expression, before any goroutine is started. -/
theorem MultiHead.Run_panics_without_Initialise :
    NewMultiHead.renderers.length = 0
      ∧ (NewMultiHead.Run []).result = some (Outcome.panicked "slice bounds out of range [:-1]")
      ∧ (NewMultiHead.Run [0, 1, 0]).result
          = some (Outcome.panicked "slice bounds out of range [:-1]") := by
  refine ⟨rfl, rfl, rfl⟩

/-- C10, amended: a `MultiHead` reached from `NewMultiHead` by a sequence of operations that
contains an `Initialise`, whether it succeeded or failed, has exactly two members, so the slice
and index expressions of `Run` are in bounds and `Run` does not panic under any schedule. -/
theorem MultiHead.Run_in_bounds_after_Initialise (ops : List Op)
    (h : ∃ op ∈ ops, op.isInitialise = true) (sched : List Nat) :
    (ops.foldl MultiHead.after NewMultiHead).renderers.length = 2
      ∧ ∀ msg, ((ops.foldl MultiHead.after NewMultiHead).Run sched).result
          ≠ some (Outcome.panicked msg) := by
  have hlen := MultiHead.after_length ops NewMultiHead (Or.inr h)
  refine ⟨hlen, ?_⟩
  apply MultiHead.Run_no_panic
  omega

/-- A `MultiHead` whose `Initialise` failed on the bridge, then used: it has two members and
`Run` does not panic at the slice expression. -/
theorem MultiHead.Run_in_bounds_after_Initialise_witness :
    ([Op.Initialise (failing "E").toBehaviour quiet ⟨false, "cfg"⟩ ⟨1⟩ ⟨2⟩,
        Op.SetTitle "wails"].foldl MultiHead.after NewMultiHead).renderers.length = 2
      ∧ (([Op.Initialise (failing "E").toBehaviour quiet ⟨false, "cfg"⟩ ⟨1⟩ ⟨2⟩,
        Op.SetTitle "wails"].foldl MultiHead.after NewMultiHead).Run [0, 0, 0, 0, 0]).result
          ≠ some (Outcome.panicked "slice bounds out of range [:-1]") :=
  ⟨(MultiHead.Run_in_bounds_after_Initialise
      [Op.Initialise (failing "E").toBehaviour quiet ⟨false, "cfg"⟩ ⟨1⟩ ⟨2⟩, Op.SetTitle "wails"]
      ⟨_, List.mem_cons_self _ _, rfl⟩ [0, 0, 0, 0, 0]).1,
   (MultiHead.Run_in_bounds_after_Initialise
      [Op.Initialise (failing "E").toBehaviour quiet ⟨false, "cfg"⟩ ⟨1⟩ ⟨2⟩, Op.SetTitle "wails"]
      ⟨_, List.mem_cons_self _ _, rfl⟩ [0, 0, 0, 0, 0]).2 "slice bounds out of range [:-1]"⟩

/-! ## `app.go` -/

theorem failFast_calls_prefix (op : Renderer → Option Error) (ev : Nat → Call)
    (rs : List Renderer) :
    ∀ i, (failFast op ev i rs).1 <+: (List.range' i rs.length).map ev := by
  induction rs with
  | nil => intro i; simp [failFast]
  | cons r rs ih =>
    intro i
    cases hr : op r with
    | none =>
      simp only [failFast, hr, List.length_cons, List.range'_succ, List.map_cons]
      exact (List.prefix_cons_inj _).mpr (ih (i + 1))
    | some e =>
      simp only [failFast, hr, List.length_cons, List.range'_succ, List.map_cons]
      exact (List.prefix_cons_inj _).mpr (List.nil_prefix)

theorem failFast_none_all (op : Renderer → Option Error) (ev : Nat → Call)
    (rs : List Renderer) :
    ∀ i, (failFast op ev i rs).2 = none → ∀ p ∈ rs, op p = none := by
  induction rs with
  | nil => intro i _ p hp; cases hp
  | cons r rs ih =>
    intro i h p hp
    cases hr : op r with
    | none =>
      simp only [failFast, hr] at h
      rcases List.mem_cons.mp hp with heq | hmem
      · rw [heq]; exact hr
      · exact ih (i + 1) h p hmem
    | some e => simp [failFast, hr] at h

theorem App.start_frozen (a : App) (vars : LoopVariable) (l : List Nat) :
    ∀ s : StartState, s.result.isSome = true → l.foldl (App.startStep a vars) s = s := by
  induction l with
  | nil => intro s _; rfl
  | cons p l ih =>
    intro s hs
    rw [List.foldl_cons]
    have hstep : App.startStep a vars s p = s := by simp [App.startStep, hs]
    rw [hstep]
    exact ih s hs

theorem App.initialiseRenderers_ok (a : App)
    (hinit : ∀ r ∈ a.renderer, r.Initialise a.config a.ipc a.eventManager = none) :
    a.initialiseRenderers = ((List.range a.renderer.length).map
      (fun i => Call.Initialise i a.config a.ipc a.eventManager), none) := by
  rw [App.initialiseRenderers, List.range_eq_range']
  exact failFast_ok (fun r => r.Initialise a.config a.ipc a.eventManager) _ a.renderer 0 hinit

theorem App.startEnter_ok (a : App)
    (hinit : ∀ r ∈ a.renderer, r.Initialise a.config a.ipc a.eventManager = none)
    (hb : a.bindingManager.Start = none) :
    a.startEnter =
      { pc := if 0 < a.renderer.length then StartPC.add 0 else StartPC.wgDone,
        r := 0, wg := 0, tasks := List.replicate a.renderer.length TaskStatus.absent,
        calls := a.startupCalls, background := [],
        runtime := some (NewRuntime a.eventManager (List.range a.renderer.length)),
        result := none } := by
  simp [App.startEnter, App.initialiseRenderers_ok a hinit, hb, App.startupCalls, NewRuntime]

theorem App.startEnter_bindingFails (a : App)
    (hinit : ∀ r ∈ a.renderer, r.Initialise a.config a.ipc a.eventManager = none)
    (e : Error) (hb : a.bindingManager.Start = some e) :
    a.startEnter =
      { pc := StartPC.done, r := 0, wg := 0, tasks := [],
        calls := a.startupCalls, background := [],
        runtime := some (NewRuntime a.eventManager (List.range a.renderer.length)),
        result := some (Outcome.returned (some e)) } := by
  simp [App.startEnter, App.initialiseRenderers_ok a hinit, hb, App.startupCalls, NewRuntime]

theorem App.startStep_inv (a : App) (vars : LoopVariable) (base : List Call) (s : StartState)
    (pick : Nat) (m : Nat) (h : App.StartInv a vars base s m) :
    ∃ m', App.StartInv a vars base (App.startStep a vars s pick) m' := by
  unfold App.startStep
  split
  · exact ⟨m, h⟩
  · cases pick with
    | zero =>
      simp only [App.startCaller]
      split
      · rename_i i hpc
        obtain ⟨hmi, hi⟩ := h.add i hpc
        refine ⟨m, ⟨h.le, h.calls, ?_, ?_, h.launched, h.nonempty, h.distinct⟩⟩
        · intro j hj; simp at hj
        · intro j hj
          simp only [StartPC.go.injEq] at hj
          subst hj
          exact ⟨hmi, hi⟩
      · rename_i i hpc
        obtain ⟨hmi, hi⟩ := h.go i hpc
        subst hmi
        refine ⟨m + 1, ⟨hi, ?_, ?_, ?_, ?_, ?_, ?_⟩⟩
        · simp [h.calls, List.range_succ]
        · intro j hj
          by_cases hlt : m + 1 < a.renderer.length
          · simp only [hlt, if_true, StartPC.add.injEq] at hj
            subst hj
            exact ⟨rfl, hlt⟩
          · simp [hlt] at hj
        · intro j hj
          by_cases hlt : m + 1 < a.renderer.length
          · simp [hlt] at hj
          · simp [hlt] at hj
        · intro k hk
          by_cases hkm : m = k
          · omega
          · simp only [List.getElem?_set_ne hkm] at hk
            have := h.launched k hk
            omega
        · intro _; omega
        · intro hv
          obtain ⟨hnd, hrun⟩ := h.distinct hv
          refine ⟨hnd, ?_⟩
          intro k hk
          have hst := hrun k hk
          have hkm : k < m := h.launched k (Or.inr hst)
          have hne : m ≠ k := by omega
          simp only [List.getElem?_set_ne hne]
          exact hst
      · split
        · refine ⟨m, ⟨h.le, h.calls, ?_, ?_, h.launched, h.nonempty, h.distinct⟩⟩
            <;> intro j hj <;> simp at hj
        · refine ⟨m, ⟨h.le, h.calls, ?_, ?_, h.launched, h.nonempty, h.distinct⟩⟩
            <;> intro j hj <;> simp at hj
      · refine ⟨m, ⟨h.le, h.calls, ?_, ?_, h.launched, h.nonempty, h.distinct⟩⟩
          <;> intro j hj <;> simp at hj
      · exact ⟨m, h⟩
    | succ k =>
      have hset : ∀ (st : TaskStatus), (s.tasks[k]? = some TaskStatus.ready
            ∨ s.tasks[k]? = some TaskStatus.ran) →
          (∀ k', ((s.tasks.set k st)[k']? = some TaskStatus.ready
              ∨ (s.tasks.set k st)[k']? = some TaskStatus.ran
              ∨ (s.tasks.set k st)[k']? = some TaskStatus.finished) → k' < m) := by
        intro st hk k' hk'
        by_cases hkk : k = k'
        · subst hkk
          rcases hk with hk | hk
          · exact h.launched k (Or.inl hk)
          · exact h.launched k (Or.inr (Or.inl hk))
        · simp only [List.getElem?_set_ne hkk] at hk'
          exact h.launched k' hk'
      have hlen : ∀ st, s.tasks[k]? = some st → k < s.tasks.length := by
        intro st hst
        by_contra hcon
        have : s.tasks[k]? = none := List.getElem?_eq_none_iff.mpr (by omega)
        rw [this] at hst
        cases hst
      simp only [App.startGoroutine]
      split
      · rename_i r htask hr
        have hm1 : 1 ≤ m := by
          have := h.launched k (Or.inl htask)
          omega
        have hdist : ∀ (st : TaskStatus), (st = TaskStatus.ran ∨ st = TaskStatus.finished) →
            vars = LoopVariable.perIteration →
            (s.background ++ [Call.Run (App.closureRenderer vars k s) Context.background]).Nodup
              ∧ ∀ k', Call.Run k' Context.background ∈
                  s.background ++ [Call.Run (App.closureRenderer vars k s) Context.background] →
                ((s.tasks.set k st)[k']? = some TaskStatus.ran
                  ∨ (s.tasks.set k st)[k']? = some TaskStatus.finished) := by
          intro st hst hv
          obtain ⟨hnd, hrun⟩ := h.distinct hv
          subst hv
          simp only [App.closureRenderer]
          have hnot : Call.Run k Context.background ∉ s.background := by
            intro hmem
            rcases hrun k hmem with h1 | h1 <;> rw [htask] at h1 <;> cases h1
          refine ⟨?_, ?_⟩
          · rw [List.nodup_append]
            refine ⟨hnd, List.nodup_singleton _, ?_⟩
            intro x hx hy
            rw [List.mem_singleton] at hy
            subst hy
            exact hnot hx
          · intro k' hk'
            rw [List.mem_append, List.mem_singleton] at hk'
            rcases hk' with hk' | hk'
            · have hne : k ≠ k' := by
                intro hkk
                subst hkk
                exact hnot hk'
              simp only [List.getElem?_set_ne hne]
              exact hrun k' hk'
            · simp only [Call.Run.injEq, and_true] at hk'
              subst hk'
              rw [List.getElem?_set_self (hlen _ htask)]
              rcases hst with hst | hst <;> simp [hst]
        split
        · exact ⟨m, ⟨h.le, h.calls, h.add, h.go, hset _ (Or.inl htask), fun _ => hm1,
            hdist _ (Or.inr rfl)⟩⟩
        · exact ⟨m, ⟨h.le, h.calls, h.add, h.go, hset _ (Or.inl htask), fun _ => hm1,
            hdist _ (Or.inl rfl)⟩⟩
      · rename_i htask
        split
        · exact ⟨m, ⟨h.le, h.calls, h.add, h.go, h.launched, h.nonempty, h.distinct⟩⟩
        · refine ⟨m, ⟨h.le, h.calls, h.add, h.go, hset _ (Or.inr htask), h.nonempty, ?_⟩⟩
          intro hv
          obtain ⟨hnd, hrun⟩ := h.distinct hv
          refine ⟨hnd, ?_⟩
          intro k' hk'
          by_cases hkk : k = k'
          · subst hkk
            rw [List.getElem?_set_self (hlen _ htask)]
            exact Or.inr rfl
          · simp only [List.getElem?_set_ne hkk]
            exact hrun k' hk'
      · exact ⟨m, h⟩

theorem App.start_inv (a : App) (vars : LoopVariable) (base : List Call) (l : List Nat) :
    ∀ (s : StartState) (m : Nat), App.StartInv a vars base s m →
      ∃ m', App.StartInv a vars base (l.foldl (App.startStep a vars) s) m' := by
  induction l with
  | nil => intro s m hs; exact ⟨m, hs⟩
  | cons p l ih =>
    intro s m hs
    obtain ⟨m1, h1⟩ := App.startStep_inv a vars base s p m hs
    exact ih _ m1 h1

theorem App.startEnter_inv (a : App) (vars : LoopVariable)
    (hinit : ∀ r ∈ a.renderer, r.Initialise a.config a.ipc a.eventManager = none)
    (hb : a.bindingManager.Start = none) :
    App.StartInv a vars a.startupCalls a.startEnter 0 := by
  rw [App.startEnter_ok a hinit hb]
  refine ⟨Nat.zero_le _, by simp, ?_, ?_, ?_, ?_, ?_⟩
  · intro i hi
    by_cases hlt : 0 < a.renderer.length
    · simp [hlt] at hi
      exact ⟨hi, by omega⟩
    · simp [hlt] at hi
  · intro i hi
    by_cases hlt : 0 < a.renderer.length
    · simp [hlt] at hi
    · simp [hlt] at hi
  · intro k hk
    simp [List.getElem?_replicate] at hk
  · intro hne
    simp at hne
  · intro _
    simp

theorem App.startStep_fatalInv (a : App) (vars : LoopVariable) (s : StartState) (pick : Nat)
    (h : App.FatalInv a s) : App.FatalInv a (App.startStep a vars s pick) := by
  unfold App.startStep
  split
  · exact h
  · rename_i hres
    have hnone : s.result = none := by
      cases hr : s.result with
      | none => rfl
      | some o => simp [hr] at hres
    have hclean : ∀ c ∈ s.background, ∃ (j : Nat) (r : Renderer),
        c = Call.Run j Context.background ∧ a.renderer[j]? = some r ∧ r.Run = none := by
      intro c hc
      obtain ⟨j, r, hcj, hr, hfat⟩ := h c hc
      refine ⟨j, r, hcj, hr, ?_⟩
      cases hrun : r.Run with
      | none => rfl
      | some e =>
        have := hfat e hrun
        rw [hnone] at this
        cases this
    have hkeep : ∀ (res : Option Outcome) (c : Call), c ∈ s.background →
        ∃ (j : Nat) (r : Renderer), c = Call.Run j Context.background ∧ a.renderer[j]? = some r
          ∧ ∀ e, r.Run = some e → res = some (Outcome.fatal ("Error starting renerer: " ++ e)) := by
      intro res c hc
      obtain ⟨j, r, hcj, hr, hrun⟩ := hclean c hc
      refine ⟨j, r, hcj, hr, ?_⟩
      intro e he
      rw [hrun] at he
      cases he
    cases pick with
    | zero =>
      simp only [App.startCaller]
      split
      · exact fun c hc => hkeep _ c hc
      · exact fun c hc => hkeep _ c hc
      · split
        · exact fun c hc => hkeep _ c hc
        · exact fun c hc => hkeep _ c hc
      · exact fun c hc => hkeep _ c hc
      · exact h
    | succ k =>
      simp only [App.startGoroutine]
      split
      · rename_i r htask hr
        split
        · rename_i err herr
          intro c hc
          rw [List.mem_append, List.mem_singleton] at hc
          rcases hc with hc | hc
          · exact hkeep _ c hc
          · refine ⟨_, r, hc, hr, ?_⟩
            intro e he
            rw [herr] at he
            cases he
            rfl
        · rename_i herr
          intro c hc
          rw [List.mem_append, List.mem_singleton] at hc
          rcases hc with hc | hc
          · exact hkeep _ c hc
          · refine ⟨_, r, hc, hr, ?_⟩
            intro e he
            rw [herr] at he
            cases he
      · split
        · exact fun c hc => hkeep _ c hc
        · exact fun c hc => hkeep _ c hc
      · exact h

theorem App.start_fatalInv (a : App) (vars : LoopVariable) (l : List Nat) :
    ∀ s : StartState, App.FatalInv a s →
      App.FatalInv a (l.foldl (App.startStep a vars) s) := by
  induction l with
  | nil => intro s hs; exact hs
  | cons p l ih => intro s hs; exact ih _ (App.startStep_fatalInv a vars s p hs)

theorem App.startStep_outcome (a : App) (vars : LoopVariable) (s : StartState) (pick : Nat)
    (h : ∀ out, s.result = some out → App.LaunchOutcome a out) :
    ∀ out, (App.startStep a vars s pick).result = some out → App.LaunchOutcome a out := by
  intro out
  unfold App.startStep
  split
  · exact h out
  · rename_i hres
    have hnone : s.result = none := by
      cases hr : s.result with
      | none => rfl
      | some o => simp [hr] at hres
    cases pick with
    | zero =>
      simp only [App.startCaller]
      split
      · simp [hnone]
      · simp [hnone]
      · split
        · intro hout
          simp only [Option.some.injEq] at hout
          exact Or.inr (Or.inl ⟨_, hout.symm⟩)
        · simp [hnone]
      · intro hout
        simp only [Option.some.injEq] at hout
        exact Or.inl hout.symm
      · simp [hnone]
    | succ k =>
      simp only [App.startGoroutine]
      split
      · rename_i r _ hr
        split
        · rename_i err herr
          intro hout
          simp only [Option.some.injEq] at hout
          exact Or.inr (Or.inr ⟨_, r, err, hr, herr, hout.symm⟩)
        · simp [hnone]
      · split
        · intro hout
          simp only [Option.some.injEq] at hout
          exact Or.inr (Or.inl ⟨_, hout.symm⟩)
        · simp [hnone]
      · simp [hnone]

theorem App.start_outcome (a : App) (vars : LoopVariable) (l : List Nat) :
    ∀ s : StartState, (∀ out, s.result = some out → App.LaunchOutcome a out) →
      ∀ out, (l.foldl (App.startStep a vars) s).result = some out → App.LaunchOutcome a out := by
  induction l with
  | nil => intro s hs; exact hs
  | cons p l ih => intro s hs; exact ih _ (App.startStep_outcome a vars s p hs)

theorem tasks_set_ready (i n : Nat) (hi : i < n) :
    (List.replicate i TaskStatus.ready ++ List.replicate (n - i) TaskStatus.absent).set i
        TaskStatus.ready
      = List.replicate (i + 1) TaskStatus.ready ++ List.replicate (n - (i + 1)) TaskStatus.absent := by
  obtain ⟨j, hj⟩ : ∃ j, n - i = j + 1 := ⟨n - i - 1, by omega⟩
  have hj2 : n - (i + 1) = j := by omega
  rw [hj, hj2, List.replicate_succ, List.replicate_succ', List.append_assoc]
  have hlen : (List.replicate i TaskStatus.ready).length = i := List.length_replicate _ _
  induction i generalizing n with
  | zero => simp
  | succ i ih => simp [List.replicate_succ]

theorem App.launch_all (a : App) (vars : LoopVariable)
    (hinit : ∀ r ∈ a.renderer, r.Initialise a.config a.ipc a.eventManager = none)
    (hb : a.bindingManager.Start = none) :
    ∀ i, i ≤ a.renderer.length →
      (List.replicate (2 * i) 0).foldl (App.startStep a vars) a.startEnter =
        { pc := if i < a.renderer.length then StartPC.add i else StartPC.wgDone,
          r := i - 1, wg := (i : Int),
          tasks := List.replicate i TaskStatus.ready
            ++ List.replicate (a.renderer.length - i) TaskStatus.absent,
          calls := a.startupCalls ++ (List.range i).map Call.Go, background := [],
          runtime := some (NewRuntime a.eventManager (List.range a.renderer.length)),
          result := none } := by
  intro i
  induction i with
  | zero =>
    intro _
    simp [App.startEnter_ok a hinit hb]
  | succ i ih =>
    intro hi
    have hlt : i < a.renderer.length := by omega
    have hrep : List.replicate (2 * (i + 1)) 0 = List.replicate (2 * i) 0 ++ [0, 0] := by
      rw [show 2 * (i + 1) = 2 * i + 2 by ring, List.replicate_add]
      rfl
    rw [hrep, List.foldl_append, ih (by omega)]
    simp only [List.foldl_cons, List.foldl_nil, App.startStep, App.startCaller, hlt, if_true,
      Option.isSome_none, Bool.false_eq_true, if_false]
    rw [tasks_set_ready i a.renderer.length hlt]
    simp [List.range_succ]

theorem App.start_goroutine_step (a : App) (vars : LoopVariable) (sched : List Nat) (k : Nat)
    (r : Renderer) (hres : (a.start vars sched).result = none)
    (htask : (a.start vars sched).tasks[k]? = some TaskStatus.ready)
    (hr : a.renderer[App.closureRenderer vars k (a.start vars sched)]? = some r) :
    (a.start vars (sched ++ [k + 1])).background
        = (a.start vars sched).background
          ++ [Call.Run (App.closureRenderer vars k (a.start vars sched)) Context.background]
      ∧ (a.start vars (sched ++ [k + 1])).result
        = r.Run.map (fun e => Outcome.fatal ("Error starting renerer: " ++ e)) := by
  have hstep : a.start vars (sched ++ [k + 1])
      = App.startGoroutine a vars k (a.start vars sched) := by
    simp [App.start, List.foldl_append, App.startStep]
    intro hsome
    simp [App.start] at hres
    rw [hres] at hsome
    cases hsome
  rw [hstep]
  unfold App.startGoroutine
  rw [htask, hr]
  cases hrun : r.Run with
  | none => simp [hrun, hres]
  | some e => simp [hrun]

/-- C5 as stated fails: the renderer set that `CreateApp` assembles is not `[Bridge, WebView]`;
its last element is the bridge, not the webview. -/
theorem CreateApp_bridge_last :
    ∃ a, CreateApp (examplePackages quiet quiet) [] = Except.ok a
      ∧ a.renderer.map (fun r => r.kind) ≠ [Kind.Bridge, Kind.WebView]
      ∧ a.renderer.getLast?.map (fun r => r.kind) = some Kind.Bridge :=
  ⟨_, rfl, by decide, rfl⟩

/-- C5, amended: for every configuration that `CreateApp` accepts, the renderer set of the
application is the two-element list `[WebView, Bridge]`, the webview first; this is the
reverse of the member list `[Bridge, WebView]` that `MultiHead.Initialise` installs. -/
theorem CreateApp_renderer_order (pkg : Packages) (optionalConfig : List (Option AppConfig))
    (a : App) (h : CreateApp pkg optionalConfig = Except.ok a) :
    a.renderer = [NewWebView pkg.webview, Bridge.new pkg.bridge]
      ∧ a.renderer.map (fun r => r.kind) = [Kind.WebView, Kind.Bridge]
      ∧ ∀ (d : MultiHead) (bridge webview : Behaviour) (app : AppConfig) (ipc : IPCManager)
          (emgr : EventManager),
          (d.Initialise bridge webview app ipc emgr).1.renderers.map (fun r => r.kind)
            = (a.renderer.map (fun r => r.kind)).reverse := by
  have hr : a.renderer = [NewWebView pkg.webview, Bridge.new pkg.bridge] := by
    unfold CreateApp at h
    simp only at h
    split at h
    · cases h
    · split at h
      · cases h; rfl
      · cases h; rfl
  refine ⟨hr, ?_, ?_⟩
  · rw [hr]; rfl
  · intro d bridge webview app ipc emgr
    rw [hr]; rfl

/-- The application created without a configuration argument: the webview is first. -/
theorem CreateApp_renderer_order_witness :
    ∃ a, CreateApp (examplePackages quiet quiet) [] = Except.ok a
      ∧ a.renderer.map (fun r => r.kind) = [Kind.WebView, Kind.Bridge] :=
  ⟨_, rfl, (CreateApp_renderer_order (examplePackages quiet quiet) [] _ rfl).2.1⟩

/-- C6 as stated fails: an application in production mode whose renderers all initialise,
whose binding manager starts and whose renderers all fail `Run` with `"E"`.  When the caller
reaches its `return` before a goroutine has run, `App.Run` returns `nil`; when a goroutine
runs first, the process ends in `log.Fatalf`.  In neither case is `"E"` returned, whichever
meaning the loop variable has. -/
theorem App.Run_drops_renderer_error :
    ∃ a, CreateApp (examplePackages { quiet with Run := some "E" } { quiet with Run := some "E" })
          [] = Except.ok a
      ∧ a.renderer.map (fun r => r.Initialise a.config a.ipc a.eventManager) = [none, none]
      ∧ a.bindingManager.Start = none
      ∧ a.renderer.map (fun r => r.Run) = [some "E", some "E"]
      ∧ (a.Run BuildMode.Prod LoopVariable.perIteration [0, 0, 0, 0, 0, 0]).result
          = some (Outcome.returned none)
      ∧ (a.Run BuildMode.Prod LoopVariable.shared [0, 0, 0, 0, 0, 0]).result
          = some (Outcome.returned none)
      ∧ (a.Run BuildMode.Prod LoopVariable.perIteration [0, 0, 1]).result
          = some (Outcome.fatal "Error starting renerer: E")
      ∧ (a.Run BuildMode.Prod LoopVariable.shared [0, 0, 1]).result
          = some (Outcome.fatal "Error starting renerer: E") :=
  ⟨_, rfl, rfl, rfl, rfl, rfl, rfl, rfl, rfl⟩

/-- C6, amended: for an application in production mode whose renderers all initialise and
whose binding manager starts, under every schedule and either meaning of the loop variable:
a value that `App.Run` returns is `nil`; the caller itself calls no `Run`; every call made in
a goroutine is a `Run` on a renderer of the application, and if that `Run` returned an error
`e` the outcome is `log.Fatalf` with `e`; the loop starts one goroutine for every renderer;
a goroutine that has been started and is scheduled calls `Run` on the renderer its closure
denotes, and an error of that `Run` goes to `log.Fatalf`; and a process that ends in
`log.Fatalf` carries the error of the `Run` of one of the renderers. -/
theorem App.Run_returns_only_nil (a : App) (vars : LoopVariable) (sched : List Nat)
    (hinit : ∀ r ∈ a.renderer, r.Initialise a.config a.ipc a.eventManager = none)
    (hb : a.bindingManager.Start = none) :
    (∀ v, (a.Run BuildMode.Prod vars sched).result = some (Outcome.returned v) → v = none)
      ∧ (∀ j ctx, Call.Run j ctx ∉ (a.Run BuildMode.Prod vars sched).calls)
      ∧ (∀ c ∈ (a.Run BuildMode.Prod vars sched).background, ∃ (j : Nat) (r : Renderer),
          c = Call.Run j Context.background ∧ a.renderer[j]? = some r
            ∧ ∀ e, r.Run = some e → (a.Run BuildMode.Prod vars sched).result
                = some (Outcome.fatal ("Error starting renerer: " ++ e)))
      ∧ ((a.Run BuildMode.Prod vars (List.replicate (2 * a.renderer.length) 0)).tasks
            = List.replicate a.renderer.length TaskStatus.ready
          ∧ (a.Run BuildMode.Prod vars (List.replicate (2 * a.renderer.length) 0)).calls
            = a.startupCalls ++ (List.range a.renderer.length).map Call.Go
          ∧ (a.Run BuildMode.Prod vars (List.replicate (2 * a.renderer.length) 0)).background
            = [])
      ∧ (∀ k r, (a.Run BuildMode.Prod vars sched).result = none →
          (a.Run BuildMode.Prod vars sched).tasks[k]? = some TaskStatus.ready →
          a.renderer[App.closureRenderer vars k (a.Run BuildMode.Prod vars sched)]? = some r →
          (a.Run BuildMode.Prod vars (sched ++ [k + 1])).background
              = (a.Run BuildMode.Prod vars sched).background
                ++ [Call.Run (App.closureRenderer vars k (a.Run BuildMode.Prod vars sched))
                      Context.background]
            ∧ (a.Run BuildMode.Prod vars (sched ++ [k + 1])).result
              = r.Run.map (fun e => Outcome.fatal ("Error starting renerer: " ++ e)))
      ∧ (∀ msg, (a.Run BuildMode.Prod vars sched).result = some (Outcome.fatal msg) →
          ∃ (k : Nat) (r : Renderer) (e : Error), a.renderer[k]? = some r ∧ r.Run = some e
            ∧ msg = "Error starting renerer: " ++ e) := by
  have hrun : ∀ l, a.Run BuildMode.Prod vars l
      = ({ a with logLevel := "error" } : App).start vars l := by
    intro l
    simp [App.Run]
  have hent := App.startEnter_ok { a with logLevel := "error" } hinit hb
  have hinv := App.start_inv { a with logLevel := "error" } vars _ sched _ 0
    (App.startEnter_inv { a with logLevel := "error" } vars hinit hb)
  have hfat := App.start_fatalInv { a with logLevel := "error" } vars sched _
    (show App.FatalInv { a with logLevel := "error" }
        ({ a with logLevel := "error" } : App).startEnter by
      rw [hent]
      intro c hc
      cases hc)
  have hall := App.start_outcome { a with logLevel := "error" } vars sched
    ({ a with logLevel := "error" } : App).startEnter
    (by
      intro out hout
      rw [hent] at hout
      cases hout)
  refine ⟨?_, ?_, ?_, ?_, ?_, ?_⟩
  · intro v hv
    rw [hrun] at hv
    rcases hall _ hv with h | ⟨msg, h⟩ | ⟨k, r, e, _, _, h⟩
    · simpa using h
    · cases h
    · cases h
  · intro j ctx hmem
    rw [hrun] at hmem
    obtain ⟨m, hm⟩ := hinv
    have hc := hm.calls
    unfold App.start at hmem
    rw [hc] at hmem
    simp [App.startupCalls] at hmem
  · intro c hc
    rw [hrun] at hc ⊢
    exact hfat c hc
  · rw [hrun]
    have hl := App.launch_all { a with logLevel := "error" } vars hinit hb a.renderer.length
      (Nat.le_refl _)
    unfold App.start
    rw [hl]
    refine ⟨?_, rfl, rfl⟩
    simp
  · intro k r hres htask hr
    rw [hrun] at hres htask hr
    rw [hrun, hrun]
    exact App.start_goroutine_step { a with logLevel := "error" } vars sched k r hres htask hr
  · intro msg hmsg
    rw [hrun] at hmsg
    rcases hall _ hmsg with h | ⟨m, h⟩ | ⟨k, r, e, hk, hr, h⟩
    · cases h
    · cases h
    · refine ⟨k, r, e, hk, hr, ?_⟩
      simpa using h

/-- An application whose two renderers fail `Run` with `"E"`: once the caller has started the
first goroutine, scheduling that goroutine makes it call `Run` on the first renderer, and the
error ends the process in `log.Fatalf`. -/
theorem App.Run_returns_only_nil_witness :
    ((App.mk ⟨true, "defaults"⟩ none [crashing "E", crashing "E"] "info" ⟨1⟩ ⟨2, none⟩ ⟨3⟩
          none).Run BuildMode.Prod LoopVariable.perIteration [0, 0, 1]).background
        = [Call.Run 0 Context.background]
      ∧ ((App.mk ⟨true, "defaults"⟩ none [crashing "E", crashing "E"] "info" ⟨1⟩ ⟨2, none⟩ ⟨3⟩
          none).Run BuildMode.Prod LoopVariable.perIteration [0, 0, 1]).result
        = some (Outcome.fatal "Error starting renerer: E") :=
  (App.Run_returns_only_nil
    (App.mk ⟨true, "defaults"⟩ none [crashing "E", crashing "E"] "info" ⟨1⟩ ⟨2, none⟩ ⟨3⟩ none)
    LoopVariable.perIteration [0, 0]
    (by intro r hr; simp only [List.mem_cons, List.mem_singleton, List.not_mem_nil, or_false,
          or_self] at hr; rw [hr]; rfl)
    rfl).2.2.2.2.1 0 (crashing "E") rfl rfl rfl

/-- C7: under every schedule, for every outcome of the collaborators and either meaning of the
loop variable, the calls that `App.start` makes are a beginning of the sequence: `Initialise`
on each renderer in list order, `eventManager.Start`, `ipc.Start`, `NewRuntime`,
`bindingManager.Start`, then the `go` statement that starts the `Run` of each renderer, in list
order.  The calls of `Run` themselves are made by the goroutines: each is a `Run` on a
renderer of the application, none is made before the whole start-up sequence and a `go`
statement have been executed, and when every iteration has its own loop variable they are on
distinct renderers, each after the `go` statement of its renderer.  When nothing fails and the
caller runs through its loop, the whole sequence is made.  If renderer `k` is the first whose
`Initialise` fails, `start` returns that error after the calls of `Initialise` on the renderers
up to `k` and nothing else; if `bindingManager.Start` fails, `start` returns that error after
the start-up sequence and no `Run` is started. -/
theorem App.start_call_sequence (a : App) (vars : LoopVariable) (sched : List Nat) :
    (a.start vars sched).calls
        <+: a.startupCalls ++ (List.range a.renderer.length).map Call.Go
      ∧ (∀ c ∈ (a.start vars sched).background,
          ∃ j, c = Call.Run j Context.background ∧ j < a.renderer.length)
      ∧ ((a.start vars sched).background ≠ [] →
          ∃ m, 1 ≤ m ∧ (a.start vars sched).calls
            = a.startupCalls ++ (List.range m).map Call.Go)
      ∧ (vars = LoopVariable.perIteration →
          (a.start vars sched).background.Nodup
            ∧ ∀ k, Call.Run k Context.background ∈ (a.start vars sched).background →
                Call.Go k ∈ (a.start vars sched).calls)
      ∧ ((∀ p ∈ a.renderer, p.Initialise a.config a.ipc a.eventManager = none) →
          a.bindingManager.Start = none →
          (a.start vars (List.replicate (2 * a.renderer.length) 0)).calls
            = a.startupCalls ++ (List.range a.renderer.length).map Call.Go)
      ∧ (∀ pre r post e, a.renderer = pre ++ r :: post →
          (∀ p ∈ pre, p.Initialise a.config a.ipc a.eventManager = none) →
          r.Initialise a.config a.ipc a.eventManager = some e →
          (a.start vars sched).result = some (Outcome.returned (some e))
            ∧ (a.start vars sched).calls = (List.range (pre.length + 1)).map
                (fun i => Call.Initialise i a.config a.ipc a.eventManager)
            ∧ (a.start vars sched).background = [])
      ∧ ((∀ p ∈ a.renderer, p.Initialise a.config a.ipc a.eventManager = none) →
          ∀ e, a.bindingManager.Start = some e →
          (a.start vars sched).result = some (Outcome.returned (some e))
            ∧ (a.start vars sched).calls = a.startupCalls
            ∧ (a.start vars sched).background = []) := by
  have hmain : ((a.start vars sched).background = []
        ∧ (a.start vars sched).calls
            <+: a.startupCalls ++ (List.range a.renderer.length).map Call.Go)
      ∨ ∃ m, App.StartInv a vars a.startupCalls (a.start vars sched) m
          ∧ App.FatalInv a (a.start vars sched) := by
    cases hinit : a.initialiseRenderers.2 with
    | some err =>
      left
      have henter : a.startEnter =
          { pc := StartPC.done, r := 0, wg := 0, tasks := [], calls := a.initialiseRenderers.1,
            background := [], runtime := a.runtime,
            result := some (Outcome.returned (some err)) } := by
        simp [App.startEnter, hinit]
      unfold App.start
      rw [App.start_frozen a vars sched a.startEnter (by rw [henter]; rfl), henter]
      refine ⟨rfl, ?_⟩
      have hp := failFast_calls_prefix (fun r => r.Initialise a.config a.ipc a.eventManager)
        (fun i => Call.Initialise i a.config a.ipc a.eventManager) a.renderer 0
      rw [← List.range_eq_range'] at hp
      unfold App.startupCalls
      rw [List.append_assoc]
      exact hp.trans (List.prefix_append _ _)
    | none =>
      have hall := failFast_none_all (fun r => r.Initialise a.config a.ipc a.eventManager)
        (fun i => Call.Initialise i a.config a.ipc a.eventManager) a.renderer 0 hinit
      cases hb : a.bindingManager.Start with
      | some err =>
        left
        have henter := App.startEnter_bindingFails a hall err hb
        unfold App.start
        rw [App.start_frozen a vars sched a.startEnter (by rw [henter]; rfl), henter]
        exact ⟨rfl, List.prefix_append _ _⟩
      | none =>
        right
        obtain ⟨m, hm⟩ := App.start_inv a vars _ sched _ 0 (App.startEnter_inv a vars hall hb)
        refine ⟨m, hm, ?_⟩
        apply App.start_fatalInv
        rw [App.startEnter_ok a hall hb]
        intro c hc
        cases hc
  refine ⟨?_, ?_, ?_, ?_, ?_, ?_, ?_⟩
  · rcases hmain with ⟨_, hp⟩ | ⟨m, hm, _⟩
    · exact hp
    · rw [hm.calls]
      apply (List.prefix_append_right_inj _).mpr
      have hn : a.renderer.length = m + (a.renderer.length - m) := by
        have := hm.le
        omega
      rw [hn, List.range_add, List.map_append]
      exact List.prefix_append _ _
  · intro c hc
    rcases hmain with ⟨hbg, _⟩ | ⟨m, _, hf⟩
    · rw [hbg] at hc
      cases hc
    · obtain ⟨j, r, hcj, hr, _⟩ := hf c hc
      refine ⟨j, hcj, ?_⟩
      by_contra hcon
      have : a.renderer[j]? = none := List.getElem?_eq_none_iff.mpr (by omega)
      rw [this] at hr
      cases hr
  · intro hne
    rcases hmain with ⟨hbg, _⟩ | ⟨m, hm, _⟩
    · exact absurd hbg hne
    · exact ⟨m, hm.nonempty hne, hm.calls⟩
  · intro hv
    rcases hmain with ⟨hbg, _⟩ | ⟨m, hm, _⟩
    · rw [hbg]
      refine ⟨List.nodup_nil, ?_⟩
      intro k hk
      cases hk
    · obtain ⟨hnd, hrun⟩ := hm.distinct hv
      refine ⟨hnd, ?_⟩
      intro k hk
      have hkm : k < m := hm.launched k (Or.inr (hrun k hk))
      rw [hm.calls, List.mem_append]
      right
      exact List.mem_map.mpr ⟨k, List.mem_range.mpr hkm, rfl⟩
  · intro hinit hb
    unfold App.start
    rw [App.launch_all a vars hinit hb a.renderer.length (Nat.le_refl _)]
  · intro pre r post e hrs hpre hr
    have hff := failFast_fail (fun r => r.Initialise a.config a.ipc a.eventManager)
      (fun i => Call.Initialise i a.config a.ipc a.eventManager) pre r post e 0 hpre hr
    rw [← hrs, ← List.range_eq_range'] at hff
    have henter : a.startEnter =
        { pc := StartPC.done, r := 0, wg := 0, tasks := [],
          calls := (List.range (pre.length + 1)).map
            (fun i => Call.Initialise i a.config a.ipc a.eventManager),
          background := [], runtime := a.runtime,
          result := some (Outcome.returned (some e)) } := by
      simp [App.startEnter, App.initialiseRenderers, hff]
    unfold App.start
    rw [App.start_frozen a vars sched a.startEnter (by rw [henter]; rfl), henter]
    exact ⟨rfl, rfl, rfl⟩
  · intro hall e hb
    have henter := App.startEnter_bindingFails a hall e hb
    unfold App.start
    rw [App.start_frozen a vars sched a.startEnter (by rw [henter]; rfl), henter]
    exact ⟨rfl, rfl, rfl⟩

/-- An application whose second renderer fails `Initialise`: `start` returns that error after
the two calls of `Initialise`; no manager is started and no `Run` is launched. -/
theorem App.start_call_sequence_witness :
    ((App.mk ⟨true, "defaults"⟩ none [stub quiet, failing "E2", failing "E3"] "info" ⟨1⟩
          ⟨2, none⟩ ⟨3⟩ none).start LoopVariable.shared [0, 1, 0, 2]).result
        = some (Outcome.returned (some "E2"))
      ∧ ((App.mk ⟨true, "defaults"⟩ none [stub quiet, failing "E2", failing "E3"] "info" ⟨1⟩
          ⟨2, none⟩ ⟨3⟩ none).start LoopVariable.shared [0, 1, 0, 2]).calls
        = [Call.Initialise 0 ⟨true, "defaults"⟩ ⟨1⟩ ⟨3⟩, Call.Initialise 1 ⟨true, "defaults"⟩ ⟨1⟩ ⟨3⟩]
      ∧ ((App.mk ⟨true, "defaults"⟩ none [stub quiet, failing "E2", failing "E3"] "info" ⟨1⟩
          ⟨2, none⟩ ⟨3⟩ none).start LoopVariable.shared [0, 1, 0, 2]).background = [] :=
  (App.start_call_sequence
    (App.mk ⟨true, "defaults"⟩ none [stub quiet, failing "E2", failing "E3"] "info" ⟨1⟩
      ⟨2, none⟩ ⟨3⟩ none) LoopVariable.shared [0, 1, 0, 2]).2.2.2.2.2.1
    [stub quiet] (failing "E2") [failing "E3"] "E2" rfl
    (by intro p hp; rw [List.mem_singleton] at hp; rw [hp]; rfl) rfl

end Wails
